import Mathlib

/-!
# Verification of the Multi-Model Detection Consensus Engine

Shallow embedding of `app/services/multi_model_inference.py` (class
`MultiModelInferenceService`) together with the data model of
`app/models/inspection.py`, and proofs of the specification's claims
about it.

Modelling conventions:
* Python floats are modelled by `ℚ`; `round(x, 3)` is modelled by
  `round3` (round half away from zero at the third decimal — the
  float-tie behaviour of Python's banker rounding is irrelevant to any
  value appearing here).
* Python ints are `ℤ`; `int(...)` truncation toward zero is `pyInt`.
* Strings (YOLO class names) are lists of character code points
  (`List ℕ`); Python's `sub in s` is `pyIn`, and `str.lower` is
  `pyLower` (ASCII lowering, which covers every substring the code
  matches on).
* Python dicts keyed by `ModelType` are association lists updated by
  `dictInsert` (insertion order preserved, overwrite in place — the
  semantics of Python dict assignment).
* The random `uuid.uuid4().hex[:8]` consensus-defect id is modelled by
  an explicit id supply `ids : ℕ → ℕ` indexed by group position; the
  `datetime.utcnow()` timestamp by an explicit `now : ℕ` parameter.
* The templated description string built by `_create_consensus_defect`
  is modelled structurally (`ConsensusDescription`): it keeps exactly
  the data interpolated into the template.
* A model's `model.predict(...)` call is modelled as an
  `Except InferError (List YoloBox)` input: `.error` is the call
  raising, `.ok` the list of boxes it returns (coordinates already
  extracted to integers, as the code does with `int(x2 - x1)` etc.).
-/

/-- `ModelType` enum of `multi_model_inference.py`. -/
inductive ModelType where
  | yolov8_crack
  | pds_yolo
  | mas_yolov11
deriving DecidableEq, Repr

/-- `ModelStatus` enum of `multi_model_inference.py`. -/
inductive ModelStatus where
  | not_loaded
  | loading
  | ready
  | error
deriving DecidableEq, Repr

/-- `DefectType` enum of `app/models/inspection.py`. -/
inductive DefectType where
  | corrosion
  | crack
  | weld
  | coating
  | fouling
  | damage
  | wear
  | unknown
deriving DecidableEq, Repr

/-- `DefectSeverity` enum of `app/models/inspection.py`. -/
inductive DefectSeverity where
  | low
  | medium
  | high
  | critical
deriving DecidableEq, Repr

/-- A bounding box `[x, y, width, height]` of pixel integers, as the
`bbox` lists passed around by the service. -/
structure BBox where
  x : ℤ
  y : ℤ
  w : ℤ
  h : ℤ
deriving DecidableEq, Repr

/-- `ModelDetection` of `multi_model_inference.py` (one raw detection
from one model); `class_name` is the YOLO label as character codes. -/
structure ModelDetection where
  model_type : ModelType
  bbox : BBox
  confidence : ℚ
  class_id : ℤ
  class_name : List ℕ
  defect_type : DefectType
  severity : DefectSeverity
deriving DecidableEq, Repr

/-- `DefectLocation` of `app/models/inspection.py`. -/
structure DefectLocation where
  x : ℤ
  y : ℤ
  width : ℤ
  height : ℤ
deriving DecidableEq, Repr

/-- `DefectDimensions` of `app/models/inspection.py`. -/
structure DefectDimensions where
  length : Option ℚ
  width : Option ℚ
  depth : Option ℚ
deriving DecidableEq, Repr

/-- The data interpolated into the description template
`"{type} detected by {n} model(s): {models}"` of
`_create_consensus_defect`, kept structurally. -/
structure ConsensusDescription where
  dtype : DefectType
  model_count : ℕ
  models : List ModelType
deriving DecidableEq, Repr

/-- `DetectedDefect` of `app/models/inspection.py`; the `id` string
`"defect_" + uuid4().hex[:8]` is modelled by the `ℕ` drawn from the id
supply. -/
structure DetectedDefect where
  id : ℕ
  dtype : DefectType
  severity : DefectSeverity
  confidence : ℚ
  location : DefectLocation
  description : ConsensusDescription
  dimensions : DefectDimensions
deriving DecidableEq, Repr

/-- The `analysis_metadata` dict filled in by
`analyze_with_multiple_models`. -/
structure AnalysisMetadata where
  models_used : List ModelType
  total_detections : ℕ
  consensus_detections : ℕ
  analyzed_at : ℕ
deriving DecidableEq, Repr

/-- `MultiModelResult` of `multi_model_inference.py`; dicts are
association lists in insertion order, `analysis_metadata` is `none`
until the orchestrator fills it. -/
structure MultiModelResult where
  detections_by_model : List (ModelType × List ModelDetection)
  consensus_detections : List DetectedDefect
  model_confidences : List (ModelType × ℚ)
  overall_confidence : ℚ
  analysis_metadata : Option AnalysisMetadata
deriving DecidableEq, Repr

/-- The mutable service state the orchestrator reads: each registered
model's status and the `enabled_models` list. -/
structure ServiceState where
  modelStatus : ModelType → ModelStatus
  enabled_models : List ModelType

/-- One box returned by a YOLO `predict` call, after the coordinate
extraction of `_run_model_inference` (integer bbox, float confidence,
class id and name). -/
structure YoloBox where
  bbox : BBox
  confidence : ℚ
  class_id : ℤ
  class_name : List ℕ
deriving DecidableEq, Repr

/-- A raised exception inside a model's inference call. -/
inductive InferError where
  | inferenceFailed
deriving DecidableEq, Repr

/-- The `ValueError("No models enabled. Load models first.")` raised by
`analyze_with_multiple_models`. -/
inductive AnalyzeError where
  | noModelsEnabled
deriving DecidableEq, Repr

/-- Python's `round(q, 3)`. -/
def round3 (q : ℚ) : ℚ := (round (q * 1000) : ℤ) / 1000

/-- Python's `int(...)` applied to a float: truncation toward zero. -/
def pyInt (q : ℚ) : ℤ := if 0 ≤ q then ⌊q⌋ else ⌈q⌉

/-- `np.mean` over a list of integers (used on bbox coordinates). -/
def npMeanZ (l : List ℤ) : ℚ := (l.sum : ℚ) / l.length

/-- `np.mean` over a list of floats (used on confidences). -/
def npMeanQ (l : List ℚ) : ℚ := l.sum / l.length

/-- ASCII lowering of one character code (the fragment of `str.lower`
exercised by the class-name matching, which is all-ASCII). -/
def lowerChar (c : ℕ) : ℕ := if 65 ≤ c ∧ c ≤ 90 then c + 32 else c

/-- Python's `str.lower()` on a class name. -/
def pyLower (s : List ℕ) : List ℕ := s.map lowerChar

/-- Does `hay` start with `needle`? (helper for `pyIn`). -/
def listStartsWith : List ℕ → List ℕ → Bool
  | [], _ => true
  | _ :: _, [] => false
  | a :: as, b :: bs => a == b && listStartsWith as bs

/-- Python's substring test `needle in hay`. -/
def pyIn (needle : List ℕ) : List ℕ → Bool
  | [] => needle.isEmpty
  | b :: bs => listStartsWith needle (b :: bs) || pyIn needle bs

/-- Python's `list.index(x)` (first index of `x`; unused default `0`
past the end — the code only calls it on present elements). -/
def pyIndex {α : Type} [DecidableEq α] (a : α) : List α → ℕ
  | [] => 0
  | x :: xs => if x = a then 0 else 1 + pyIndex a xs

/-- Python's `max(iterable, key=key)`: first element with the maximal
key wins (later elements replace only on strictly greater key). -/
def pyMaxBy {α : Type} (key : α → ℕ) : List α → Option α
  | [] => none
  | x :: xs => some (xs.foldl (fun best y => if key best < key y then y else best) x)

/-- Python's `set(l)` as the list of distinct elements; set iteration
order is unspecified in Python, modelled here as first-occurrence
order. -/
def pySet {α : Type} [DecidableEq α] : List α → List α
  | [] => []
  | x :: xs => x :: pySet (xs.filter (fun y => decide ¬(y = x)))
termination_by l => l.length
decreasing_by
  exact Nat.lt_succ_of_le (List.length_filter_le _ _)

/-- Python dict assignment `d[k] = v` on an association list: overwrite
in place if the key is present, else append at the end. -/
def dictInsert {κ ν : Type} [DecidableEq κ] (k : κ) (v : ν) :
    List (κ × ν) → List (κ × ν)
  | [] => [(k, v)]
  | (k2, v2) :: rest =>
      if k2 = k then (k, v) :: rest else (k2, v2) :: dictInsert k v rest

/-- Python dict lookup `d.get(k)` on an association list. -/
def dictLookup {κ ν : Type} [DecidableEq κ] (k : κ) :
    List (κ × ν) → Option ν
  | [] => none
  | (k2, v2) :: rest => if k2 = k then some v2 else dictLookup k rest

/-- Character codes of the substring `"crack"`. -/
def subCrack : List ℕ := [99, 114, 97, 99, 107]

/-- Character codes of the substring `"fracture"`. -/
def subFracture : List ℕ := [102, 114, 97, 99, 116, 117, 114, 101]

/-- Character codes of the substring `"corrosion"`. -/
def subCorrosion : List ℕ := [99, 111, 114, 114, 111, 115, 105, 111, 110]

/-- Character codes of the substring `"rust"`. -/
def subRust : List ℕ := [114, 117, 115, 116]

/-- Character codes of the substring `"weld"`. -/
def subWeld : List ℕ := [119, 101, 108, 100]

/-- Character codes of the substring `"coating"`. -/
def subCoating : List ℕ := [99, 111, 97, 116, 105, 110, 103]

/-- Character codes of the substring `"paint"`. -/
def subPaint : List ℕ := [112, 97, 105, 110, 116]

/-- Character codes of the substring `"fouling"`. -/
def subFouling : List ℕ := [102, 111, 117, 108, 105, 110, 103]

/-- Character codes of the substring `"biofouling"`. -/
def subBiofouling : List ℕ := [98, 105, 111, 102, 111, 117, 108, 105, 110, 103]

/-- Character codes of the substring `"marine growth"`. -/
def subMarineGrowth : List ℕ := [109, 97, 114, 105, 110, 101, 32, 103, 114, 111, 119, 116, 104]

/-- Character codes of the substring `"damage"`. -/
def subDamage : List ℕ := [100, 97, 109, 97, 103, 101]

/-- Character codes of the substring `"dent"`. -/
def subDent : List ℕ := [100, 101, 110, 116]

/-- Character codes of the substring `"wear"`. -/
def subWear : List ℕ := [119, 101, 97, 114]

/-- Character codes of the substring `"erosion"`. -/
def subErosion : List ℕ := [101, 114, 111, 115, 105, 111, 110]

/-- `MultiModelInferenceService._calculate_iou`: intersection over
union of two `[x, y, w, h]` boxes. -/
def calculateIou (bbox1 bbox2 : BBox) : ℚ :=
  let x2_1 : ℚ := bbox1.x + bbox1.w
  let y2_1 : ℚ := bbox1.y + bbox1.h
  let x2_2 : ℚ := bbox2.x + bbox2.w
  let y2_2 : ℚ := bbox2.y + bbox2.h
  let x1_i : ℚ := max (bbox1.x : ℚ) (bbox2.x : ℚ)
  let y1_i : ℚ := max (bbox1.y : ℚ) (bbox2.y : ℚ)
  let x2_i : ℚ := min x2_1 x2_2
  let y2_i : ℚ := min y2_1 y2_2
  if x2_i < x1_i ∨ y2_i < y1_i then 0
  else
    let intersection := (x2_i - x1_i) * (y2_i - y1_i)
    let union := (bbox1.w : ℚ) * bbox1.h + (bbox2.w : ℚ) * bbox2.h - intersection
    if 0 < union then intersection / union else 0

/-- `MultiModelInferenceService._map_class_to_defect_type`: map a YOLO
class name to a `DefectType` by lowercased substring matching (the
`model_type` argument is accepted and ignored, as in the code). -/
def mapClassToDefectType (class_name : List ℕ) (_model_type : ModelType) : DefectType :=
  let class_lower := pyLower class_name
  if pyIn subCrack class_lower || pyIn subFracture class_lower then
    DefectType.crack
  else if pyIn subCorrosion class_lower || pyIn subRust class_lower then
    DefectType.corrosion
  else if pyIn subWeld class_lower then
    DefectType.weld
  else if pyIn subCoating class_lower || pyIn subPaint class_lower then
    DefectType.coating
  else if pyIn subFouling class_lower || pyIn subBiofouling class_lower
      || pyIn subMarineGrowth class_lower then
    DefectType.fouling
  else if pyIn subDamage class_lower || pyIn subDent class_lower then
    DefectType.damage
  else if pyIn subWear class_lower || pyIn subErosion class_lower then
    DefectType.wear
  else
    DefectType.unknown

/-- The fixed `severity_order` list `[low, medium, high, critical]`. -/
def severityOrder : List DefectSeverity :=
  [DefectSeverity.low, DefectSeverity.medium, DefectSeverity.high, DefectSeverity.critical]

/-- `MultiModelInferenceService._calculate_severity`: base severity
from confidence thresholds, one-step escalation for bbox area above
15000, then the critical-type rule on the (possibly escalated)
severity. -/
def calculateSeverity (confidence : ℚ) (bbox : BBox) (defect_type : DefectType) :
    DefectSeverity :=
  let base0 : DefectSeverity :=
    if 9/10 ≤ confidence then DefectSeverity.high
    else if 3/4 ≤ confidence then DefectSeverity.medium
    else DefectSeverity.low
  let area := bbox.w * bbox.h
  let base1 : DefectSeverity :=
    if 15000 < area then
      let current_idx := pyIndex base0 severityOrder
      if current_idx < severityOrder.length - 1 then
        severityOrder.getD (current_idx + 1) base0
      else base0
    else base0
  if (defect_type = DefectType.crack ∨ defect_type = DefectType.damage)
      ∧ base1 = DefectSeverity.high ∧ 19/20 ≤ confidence then
    DefectSeverity.critical
  else base1

/-- A raw detection assembled by `_run_model_inference` from one YOLO
box: classify its defect type and severity and tag the model. -/
def boxToDetection (model_type : ModelType) (box : YoloBox) : ModelDetection :=
  let dt := mapClassToDefectType box.class_name model_type
  { model_type := model_type
    bbox := box.bbox
    confidence := box.confidence
    class_id := box.class_id
    class_name := box.class_name
    defect_type := dt
    severity := calculateSeverity box.confidence box.bbox dt }

/-- `MultiModelInferenceService._run_model_inference`: run one model's
`predict` (here: inspect its modelled outcome); a raised exception is
caught (and logged) and yields the empty detection list. -/
def runModelInference (outcome : Except InferError (List YoloBox))
    (model_type : ModelType) : List ModelDetection :=
  match outcome with
  | Except.error _ => []
  | Except.ok boxes => boxes.map (boxToDetection model_type)

/-- `MultiModelInferenceService._group_overlapping_detections`: greedy
seed-based grouping. The first not-yet-used detection seeds a group;
every later unused detection whose IoU with the seed reaches the
threshold joins it and is marked used. The imperative used-set loop is
rendered as recursion on the list of still-unused detections. -/
def groupOverlappingDetections (iou_threshold : ℚ) :
    List ModelDetection → List (List ModelDetection)
  | [] => []
  | det1 :: rest =>
      let joins := fun det2 : ModelDetection =>
        decide (iou_threshold ≤ calculateIou det1.bbox det2.bbox)
      (det1 :: rest.filter joins)
        :: groupOverlappingDetections iou_threshold (rest.filter (fun d => ! joins d))
termination_by l => l.length
decreasing_by
  exact Nat.lt_succ_of_le (List.length_filter_le _ _)

/-- `MultiModelInferenceService._create_consensus_defect`: reduce one
group of overlapping detections to a single `DetectedDefect`. `idv` is
the `uuid4` draw for this defect's id. -/
def createConsensusDefect (idv : ℕ) (group : List ModelDetection) : DetectedDefect :=
  let avg_x := pyInt (npMeanZ (group.map (fun d => d.bbox.x)))
  let avg_y := pyInt (npMeanZ (group.map (fun d => d.bbox.y)))
  let avg_w := pyInt (npMeanZ (group.map (fun d => d.bbox.w)))
  let avg_h := pyInt (npMeanZ (group.map (fun d => d.bbox.h)))
  let avg_confidence := npMeanQ (group.map (fun d => d.confidence))
  let consensus_boost := min ((group.length : ℚ) * (5/100)) (15/100)
  let final_confidence := min (avg_confidence + consensus_boost) 1
  let defect_types := group.map (fun d => d.defect_type)
  let most_common_type :=
    (pyMaxBy (fun t => defect_types.count t) (pySet defect_types)).getD DefectType.unknown
  let severities := group.map (fun d => d.severity)
  let highest_severity :=
    (pyMaxBy (fun s => pyIndex s severityOrder) severities).getD DefectSeverity.low
  let models_detected := group.map (fun d => d.model_type)
  { id := idv
    dtype := most_common_type
    severity := highest_severity
    confidence := round3 final_confidence
    location := { x := avg_x, y := avg_y, width := avg_w, height := avg_h }
    description :=
      { dtype := most_common_type, model_count := group.length, models := models_detected }
    dimensions :=
      { length := some ((avg_w : ℚ) / 10)
        width := some ((avg_h : ℚ) / 10)
        depth := none } }

/-- `MultiModelInferenceService._aggregate_detections`: concatenate all
models' detections in dict order, group them at the default threshold
0.5, and synthesize one consensus defect per group, drawing ids from
the supply `ids` in group order. -/
def aggregateDetections (ids : ℕ → ℕ) (result : MultiModelResult) : List DetectedDefect :=
  let all_detections :=
    (result.detections_by_model.map (fun p => p.2)).foldl (fun acc l => acc ++ l) []
  if all_detections.isEmpty then []
  else
    let consensus_groups := groupOverlappingDetections (1/2) all_detections
    consensus_groups.enum.map (fun p => createConsensusDefect (ids p.1) p.2)

/-- `MultiModelInferenceService._calculate_overall_confidence`:
0.0 for an empty confidence dict, the fixed 0.95 when no model reported
any detection, else the detection-count-weighted average of per-model
confidences rounded to 3 decimals. -/
def calculateOverallConfidence (result : MultiModelResult) : ℚ :=
  if result.model_confidences.isEmpty then 0
  else
    let total_detections :=
      (result.detections_by_model.map (fun p => p.2.length)).sum
    if total_detections = 0 then 95/100
    else
      let weighted_sum :=
        (result.model_confidences.map (fun p =>
          p.2 * ((((dictLookup p.1 result.detections_by_model).getD []).length : ℕ) : ℚ))).sum
      round3 (weighted_sum / total_detections)

/-- The aggregation step of `analyze_with_multiple_models` (the
`if aggregate:` block): fill in the consensus detections, then the
overall confidence. -/
def aggregationStep (ids : ℕ → ℕ) (r : MultiModelResult) : MultiModelResult :=
  let withConsensus := { r with consensus_detections := aggregateDetections ids r }
  { withConsensus with overall_confidence := calculateOverallConfidence withConsensus }

/-- The `models_to_use` resolution of `analyze_with_multiple_models`:
`models if models else self.enabled_models` (Python truthiness: `None`
and the empty list both fall back to the enabled models). -/
def resolveModels (enabled : List ModelType) (models : Option (List ModelType)) :
    List ModelType :=
  match models with
  | none => enabled
  | some l => if l.isEmpty then enabled else l

/-- The per-model loop body of `analyze_with_multiple_models`: skip a
model that is not enabled or not `READY`; otherwise run its inference
and record its detections and mean confidence. -/
def analyzeStep (state : ServiceState)
    (outcomes : ModelType → Except InferError (List YoloBox))
    (acc : List (ModelType × List ModelDetection) × List (ModelType × ℚ))
    (model_type : ModelType) :
    List (ModelType × List ModelDetection) × List (ModelType × ℚ) :=
  if model_type ∈ state.enabled_models then
    if state.modelStatus model_type = ModelStatus.ready then
      let detections := runModelInference (outcomes model_type) model_type
      let conf :=
        if detections.isEmpty then 0
        else round3 ((detections.map (fun d => d.confidence)).sum / detections.length)
      (dictInsert model_type detections acc.1, dictInsert model_type conf acc.2)
    else acc
  else acc

/-- `MultiModelInferenceService.analyze_with_multiple_models`: resolve
the model list, fail when it is empty, run the per-model loop,
optionally aggregate, and fill in the metadata. -/
def analyzeWithMultipleModels (state : ServiceState)
    (outcomes : ModelType → Except InferError (List YoloBox))
    (ids : ℕ → ℕ) (now : ℕ)
    (models : Option (List ModelType)) (aggregate : Bool) :
    Except AnalyzeError MultiModelResult :=
  let models_to_use := resolveModels state.enabled_models models
  if models_to_use.isEmpty then Except.error AnalyzeError.noModelsEnabled
  else
    let acc := models_to_use.foldl (analyzeStep state outcomes) ([], [])
    let r0 : MultiModelResult :=
      { detections_by_model := acc.1
        consensus_detections := []
        model_confidences := acc.2
        overall_confidence := 0
        analysis_metadata := none }
    let r1 := if aggregate then aggregationStep ids r0 else r0
    Except.ok
      { r1 with
          analysis_metadata := some
            { models_used := models_to_use
              total_detections := (r1.detections_by_model.map (fun p => p.2.length)).sum
              consensus_detections := r1.consensus_detections.length
              analyzed_at := now } }

/-!
## Definitions taken from the specification's words

The following definitions are NOT read off the source; they restate
what the spec's sentences say, to be compared with the source-derived
definitions above (refinement claims C5 and C10).
-/

/-- One ordinal severity step up, capped at critical (the spec's
"escalates one ordinal step ... capped at critical"). -/
def escalateOneStep : DefectSeverity → DefectSeverity
  | DefectSeverity.low => DefectSeverity.medium
  | DefectSeverity.medium => DefectSeverity.high
  | DefectSeverity.high => DefectSeverity.critical
  | DefectSeverity.critical => DefectSeverity.critical

/-- The severity classifier exactly as claim C5 words it: base severity
from confidence, one-step area escalation, and the critical-type rule
keyed on the PRE-area-escalation base severity. -/
def severityClaimSpec (confidence : ℚ) (bbox : BBox) (defect_type : DefectType) :
    DefectSeverity :=
  let base :=
    if 9/10 ≤ confidence then DefectSeverity.high
    else if 3/4 ≤ confidence then DefectSeverity.medium
    else DefectSeverity.low
  let escalated := if 15000 < bbox.w * bbox.h then escalateOneStep base else base
  if (defect_type = DefectType.crack ∨ defect_type = DefectType.damage)
      ∧ base = DefectSeverity.high ∧ 19/20 ≤ confidence then
    DefectSeverity.critical
  else escalated

/-- The ordered rule table of claim C10: substring alternatives paired
with the defect type each rule assigns. -/
def defectRules : List (List (List ℕ) × DefectType) :=
  [([subCrack, subFracture], DefectType.crack),
   ([subCorrosion, subRust], DefectType.corrosion),
   ([subWeld], DefectType.weld),
   ([subCoating, subPaint], DefectType.coating),
   ([subFouling, subBiofouling, subMarineGrowth], DefectType.fouling),
   ([subDamage, subDent], DefectType.damage),
   ([subWear, subErosion], DefectType.wear)]

/-- Claim C10's reading of the mapping: the first rule (in the fixed
order) one of whose substrings occurs in the lowercased class name
decides the type; `unknown` when no rule matches. -/
def firstMatchingRuleType (class_lower : List ℕ) : DefectType :=
  match defectRules.find? (fun r => r.1.any (fun n => pyIn n class_lower)) with
  | some r => r.2
  | none => DefectType.unknown

/-- The 14 recognized substrings, in claim C10's fixed order. -/
def recognizedSubstrings : List (List ℕ) :=
  [subCrack, subFracture, subCorrosion, subRust, subWeld, subCoating, subPaint,
   subFouling, subBiofouling, subMarineGrowth, subDamage, subDent, subWear, subErosion]

/-!
## Concrete example values

The two-model scenario of the spec's §8 (corrosion boxes
`(100,100,50,50)` conf 0.92 and `(105,102,48,49)` conf 0.89), plus a
far-away box for singleton/counterexample inputs.
-/

/-- Scenario detection of model A: bbox `(100,100,50,50)`,
confidence 0.92, type corrosion. -/
def exDetA : ModelDetection :=
  { model_type := ModelType.yolov8_crack
    bbox := { x := 100, y := 100, w := 50, h := 50 }
    confidence := 92/100
    class_id := 0
    class_name := subCorrosion
    defect_type := DefectType.corrosion
    severity := DefectSeverity.high }

/-- Scenario detection of model B: bbox `(105,102,48,49)`,
confidence 0.89, type corrosion. -/
def exDetB : ModelDetection :=
  { model_type := ModelType.pds_yolo
    bbox := { x := 105, y := 102, w := 48, h := 49 }
    confidence := 89/100
    class_id := 0
    class_name := subCorrosion
    defect_type := DefectType.corrosion
    severity := DefectSeverity.medium }

/-- A detection far away from the scenario boxes (IoU 0 with both). -/
def exDetFar : ModelDetection :=
  { model_type := ModelType.mas_yolov11
    bbox := { x := 1000, y := 1000, w := 30, h := 30 }
    confidence := 50/100
    class_id := 1
    class_name := subCrack
    defect_type := DefectType.crack
    severity := DefectSeverity.low }

/-- A degenerate box (zero width). -/
def zeroBoxA : BBox := { x := 0, y := 0, w := 0, h := 5 }

/-- Another degenerate box (zero height). -/
def zeroBoxB : BBox := { x := 3, y := 3, w := 4, h := 0 }

/-- A `DetectedDefect` without its id: all the fields of the consensus
defect that do not come from the `uuid4` draw. -/
def defectSansId (d : DetectedDefect) :
    DefectType × DefectSeverity × ℚ × DefectLocation × ConsensusDescription ×
      DefectDimensions :=
  (d.dtype, d.severity, d.confidence, d.location, d.description, d.dimensions)

/-- A service state in which every model is registered but none is
loaded and none is enabled. -/
def stateNothingReady : ServiceState :=
  { modelStatus := fun _ => ModelStatus.not_loaded
    enabled_models := [] }

/-- A service state in which only `yolov8_crack` is enabled and ready;
`pds_yolo` and `mas_yolov11` are registered but not loaded. -/
def stateOnlyCrackReady : ServiceState :=
  { modelStatus := fun m =>
      match m with
      | ModelType.yolov8_crack => ModelStatus.ready
      | _ => ModelStatus.not_loaded
    enabled_models := [ModelType.yolov8_crack] }

/-- Inference outcomes: every model returns no boxes. -/
def outcomesEmpty : ModelType → Except InferError (List YoloBox) :=
  fun _ => Except.ok []

/-- A service state in which `yolov8_crack` and `pds_yolo` are enabled
and ready; `mas_yolov11` is registered but not loaded. -/
def stateTwoReady : ServiceState :=
  { modelStatus := fun m =>
      match m with
      | ModelType.yolov8_crack => ModelStatus.ready
      | ModelType.pds_yolo => ModelStatus.ready
      | ModelType.mas_yolov11 => ModelStatus.not_loaded
    enabled_models := [ModelType.yolov8_crack, ModelType.pds_yolo] }

/-- A YOLO box matching the scenario detection of model A. -/
def exBoxA : YoloBox :=
  { bbox := { x := 100, y := 100, w := 50, h := 50 }
    confidence := 92/100
    class_id := 0
    class_name := subCorrosion }

/-- Inference outcomes: `yolov8_crack` returns the scenario box of
model A, every other model raises. -/
def outcomesCrackBox : ModelType → Except InferError (List YoloBox) :=
  fun m =>
    match m with
    | ModelType.yolov8_crack => Except.ok [exBoxA]
    | _ => Except.error InferError.inferenceFailed

/-- The identity id supply (deterministic stand-in for `uuid4`). -/
def idsZero : ℕ → ℕ := fun i => i

/-- An alternative id supply, disagreeing with `idsZero` everywhere. -/
def idsShift : ℕ → ℕ := fun i => i + 100

/-- Forget the error of an `Except` (for stating concrete runs in a
decidable form). -/
def exceptValue {ε α : Type} : Except ε α → Option α
  | Except.ok a => some a
  | Except.error _ => none

/-- The `MultiModelResult` of analysing with `stateOnlyCrackReady`,
`outcomesCrackBox`, request `[yolov8_crack, pds_yolo]` and
`aggregate = False`: only `yolov8_crack` runs and finds the scenario
detection of model A. -/
def c9Result : MultiModelResult :=
  { detections_by_model := [(ModelType.yolov8_crack, [exDetA])]
    consensus_detections := []
    model_confidences := [(ModelType.yolov8_crack, 92/100)]
    overall_confidence := 0
    analysis_metadata := some
      { models_used := [ModelType.yolov8_crack, ModelType.pds_yolo]
        total_detections := 1
        consensus_detections := 0
        analyzed_at := 0 } }

/-- A result with one recorded model-confidence entry and no
detections at all (the shape `analyze` produces when every model that
ran found nothing, before aggregation). -/
def cleanResult : MultiModelResult :=
  { detections_by_model := [(ModelType.yolov8_crack, [])]
    consensus_detections := []
    model_confidences := [(ModelType.yolov8_crack, 0)]
    overall_confidence := 0
    analysis_metadata := none }

/-- The empty result: no model ran, both dicts empty (the shape
`analyze` produces when every requested model was skipped). -/
def emptyResult : MultiModelResult :=
  { detections_by_model := []
    consensus_detections := []
    model_confidences := []
    overall_confidence := 0
    analysis_metadata := none }

/-- A result whose only model recorded the single scenario detection
of model A (input for the aggregation-step claims). -/
def oneDetectionResult : MultiModelResult :=
  { detections_by_model := [(ModelType.yolov8_crack, [exDetA])]
    consensus_detections := []
    model_confidences := [(ModelType.yolov8_crack, 92/100)]
    overall_confidence := 0
    analysis_metadata := none }

/-!
## Helper lemmas
-/

/-- Looking up a key just inserted finds the inserted value. -/
theorem dictLookup_dictInsert_self {κ ν : Type} [DecidableEq κ] (k : κ) (v : ν)
    (d : List (κ × ν)) : dictLookup k (dictInsert k v d) = some v := by
  induction d with
  | nil => simp [dictInsert, dictLookup]
  | cons p rest ih =>
      obtain ⟨k2, v2⟩ := p
      by_cases h : k2 = k
      · simp [dictInsert, dictLookup, h]
      · simp [dictInsert, dictLookup, h, ih]

/-- Inserting under a different key does not change a lookup. -/
theorem dictLookup_dictInsert_ne {κ ν : Type} [DecidableEq κ] {k k' : κ} (v : ν)
    (d : List (κ × ν)) (h : k' ≠ k) :
    dictLookup k (dictInsert k' v d) = dictLookup k d := by
  induction d with
  | nil => simp [dictInsert, dictLookup, h]
  | cons p rest ih =>
      obtain ⟨k2, v2⟩ := p
      by_cases h2 : k2 = k'
      · subst h2
        simp [dictInsert, dictLookup, h]
      · by_cases h3 : k2 = k
        · simp [dictInsert, dictLookup, h2, h3, Ne.symm h]
        · simp [dictInsert, dictLookup, h2, h3, ih]

/-- The per-model loop never touches the entry of a model that does not
occur in the remaining iteration list. -/
theorem analyzeLoop_lookup_of_not_mem (state : ServiceState)
    (outcomes : ModelType → Except InferError (List YoloBox)) (m : ModelType) :
    ∀ (l : List ModelType)
      (acc : List (ModelType × List ModelDetection) × List (ModelType × ℚ)),
      m ∉ l →
      dictLookup m (l.foldl (analyzeStep state outcomes) acc).1 = dictLookup m acc.1 := by
  intro l
  induction l with
  | nil => intro acc _; rfl
  | cons mt rest ih =>
      intro acc hm
      have hmt : mt ≠ m := fun h => hm (h ▸ List.mem_cons_self mt rest)
      have hrest : m ∉ rest := fun h => hm (List.mem_cons_of_mem mt h)
      rw [List.foldl_cons, ih _ hrest]
      unfold analyzeStep
      split
      · split
        · exact dictLookup_dictInsert_ne _ _ hmt
        · rfl
      · rfl

/-- After the per-model loop, an enabled and ready model that occurs in
the iteration list has exactly its processed detections recorded. -/
theorem analyzeLoop_lookup_of_mem (state : ServiceState)
    (outcomes : ModelType → Except InferError (List YoloBox)) (m : ModelType)
    (hen : m ∈ state.enabled_models) (hready : state.modelStatus m = ModelStatus.ready) :
    ∀ (l : List ModelType)
      (acc : List (ModelType × List ModelDetection) × List (ModelType × ℚ)),
      m ∈ l →
      dictLookup m (l.foldl (analyzeStep state outcomes) acc).1
        = some (runModelInference (outcomes m) m) := by
  intro l
  induction l with
  | nil => intro acc h; cases h
  | cons mt rest ih =>
      intro acc hm
      by_cases hmem : m ∈ rest
      · rw [List.foldl_cons]
        exact ih _ hmem
      · have hmt : mt = m := by
          rcases List.mem_cons.mp hm with h | h
          · exact h.symm
          · exact absurd h hmem
        subst hmt
        rw [List.foldl_cons, analyzeLoop_lookup_of_not_mem state outcomes mt rest _ hmem]
        unfold analyzeStep
        rw [if_pos hen, if_pos hready]
        exact dictLookup_dictInsert_self _ _ _

/-!
## Claim C2 — when does the analysis fail with the no-models error
-/

/-- C2 (amended): the analysis fails with the no-models-available error
exactly when the resolved model list — the given subset verbatim (or
the enabled models when the subset is `None` or empty) — is empty; the
`READY` filter plays no part in the check, so a non-empty requested
subset with no `READY` member does NOT fail. -/
theorem analyze_noModels_error_iff_resolved_empty
    (state : ServiceState) (outcomes : ModelType → Except InferError (List YoloBox))
    (ids : ℕ → ℕ) (now : ℕ) (models : Option (List ModelType)) (aggregate : Bool) :
    analyzeWithMultipleModels state outcomes ids now models aggregate
        = Except.error AnalyzeError.noModelsEnabled
      ↔ resolveModels state.enabled_models models = [] := by
  unfold analyzeWithMultipleModels
  rcases h : resolveModels state.enabled_models models with _ | ⟨m, l⟩ <;> simp [h]

/-- C2 is refuted at a concrete input: the subset `[yolov8_crack]` is
requested, no model (in particular no requested model) is `READY`, yet
the analysis completes successfully instead of failing. -/
theorem analyze_succeeds_with_no_ready_model :
    stateNothingReady.modelStatus ModelType.yolov8_crack ≠ ModelStatus.ready
      ∧ (analyzeWithMultipleModels stateNothingReady outcomesEmpty idsZero 0
          (some [ModelType.yolov8_crack]) true).isOk = true := by
  constructor
  · decide
  · rfl

/-!
## Claim C9 — content of the returned metadata
-/

/-- C9 (amended): on success the metadata records as `models_used` the
RESOLVED request list (the given subset verbatim, or the enabled models
when none is given) — including models that were skipped because they
were not enabled or not `READY` — together with the total raw detection
count over the recorded per-model lists and the consensus detection
count. -/
theorem analyze_metadata_content
    (state : ServiceState) (outcomes : ModelType → Except InferError (List YoloBox))
    (ids : ℕ → ℕ) (now : ℕ) (models : Option (List ModelType)) (aggregate : Bool)
    (r : MultiModelResult)
    (h : analyzeWithMultipleModels state outcomes ids now models aggregate = Except.ok r) :
    r.analysis_metadata = some
      { models_used := resolveModels state.enabled_models models
        total_detections := (r.detections_by_model.map (fun p => p.2.length)).sum
        consensus_detections := r.consensus_detections.length
        analyzed_at := now } := by
  unfold analyzeWithMultipleModels at h
  by_cases hres : (resolveModels state.enabled_models models).isEmpty
  · rw [if_pos hres] at h
    cases h
  · rw [if_neg hres] at h
    cases h
    rfl

/-- A run refuting C9 as stated: the request names `yolov8_crack` and
`pds_yolo`, only `yolov8_crack` is enabled and ready (and is the only
model whose inference runs, as the recorded per-model detections
show), yet `models_used` lists both. -/
theorem analyze_metadata_lists_skipped_model :
    stateOnlyCrackReady.modelStatus ModelType.pds_yolo ≠ ModelStatus.ready
      ∧ (analyzeWithMultipleModels stateOnlyCrackReady outcomesCrackBox idsZero 0
            (some [ModelType.yolov8_crack, ModelType.pds_yolo]) false).map
          (fun r => (r.detections_by_model.map (fun p => p.1),
            r.analysis_metadata.map (fun m => m.models_used)))
        = Except.ok ([ModelType.yolov8_crack],
            some [ModelType.yolov8_crack, ModelType.pds_yolo]) := by
  constructor
  · decide
  · rfl

/-- An `Except` whose value part is `some a` is `ok a`. -/
theorem eq_ok_of_exceptValue {ε α : Type} (e : Except ε α) (a : α)
    (h : exceptValue e = some a) : e = Except.ok a := by
  cases e with
  | ok b => cases h; rfl
  | error _ => cases h

/-- Witness for the amended C9 theorem at a concrete run (the
`aggregate = False` scenario of `c9Result`). -/
theorem analyze_metadata_content_witness :
    analyzeWithMultipleModels stateOnlyCrackReady outcomesCrackBox idsZero 0
        (some [ModelType.yolov8_crack, ModelType.pds_yolo]) false = Except.ok c9Result
      ∧ c9Result.analysis_metadata = some
          { models_used := resolveModels stateOnlyCrackReady.enabled_models
              (some [ModelType.yolov8_crack, ModelType.pds_yolo])
            total_detections := (c9Result.detections_by_model.map (fun p => p.2.length)).sum
            consensus_detections := c9Result.consensus_detections.length
            analyzed_at := 0 } := by
  have h : exceptValue (analyzeWithMultipleModels stateOnlyCrackReady outcomesCrackBox idsZero 0
      (some [ModelType.yolov8_crack, ModelType.pds_yolo]) false) = some c9Result := by
    norm_num [exceptValue, analyzeWithMultipleModels, resolveModels, stateOnlyCrackReady,
      outcomesCrackBox, analyzeStep, runModelInference, boxToDetection, mapClassToDefectType,
      calculateSeverity, dictInsert, round3, c9Result, exDetA, exBoxA, pyLower, pyIn,
      listStartsWith, subCorrosion, subCrack, subFracture, severityOrder, pyIndex, lowerChar,
      subRust, subWeld, subCoating, subPaint, subFouling, subBiofouling, subMarineGrowth,
      subDamage, subDent, subWear, subErosion]
    simp
  refine ⟨eq_ok_of_exceptValue _ _ h, ?_⟩
  have h2 := analyze_metadata_content stateOnlyCrackReady outcomesCrackBox idsZero 0
      (some [ModelType.yolov8_crack, ModelType.pds_yolo]) false c9Result
      (eq_ok_of_exceptValue _ _ h)
  exact h2

/-!
## Claim C4 — overall-confidence computation
-/

/-- C4 (amended): the overall confidence is 0.0 when the per-model
confidence dict is empty (the case in which no model ran at all, even
though the total detection count is then also 0); it is the fixed 0.95
when at least one model ran and the total raw detection count is 0;
and otherwise it is the detection-count-weighted average of the
per-model confidences, rounded to 3 decimals. -/
theorem overallConfidence_cases (r : MultiModelResult) :
    (r.model_confidences = [] → calculateOverallConfidence r = 0)
      ∧ (r.model_confidences ≠ [] →
          (r.detections_by_model.map (fun p => p.2.length)).sum = 0 →
          calculateOverallConfidence r = 95/100)
      ∧ ((r.detections_by_model.map (fun p => p.2.length)).sum ≠ 0 →
          calculateOverallConfidence r
            = round3 ((r.model_confidences.map (fun p =>
                p.2 * ((((dictLookup p.1 r.detections_by_model).getD []).length : ℕ) : ℚ))).sum
              / ((r.detections_by_model.map (fun p => p.2.length)).sum : ℚ))) := by
  refine ⟨?_, ?_, ?_⟩
  · intro h
    simp [calculateOverallConfidence, h]
  · intro hne hzero
    rw [calculateOverallConfidence, if_neg (by simpa [List.isEmpty_iff] using hne)]
    simp [hzero]
  · intro hnz
    by_cases hmc : r.model_confidences.isEmpty
    · have hmceq : r.model_confidences = [] := List.isEmpty_iff.mp hmc
      rw [calculateOverallConfidence, if_pos hmc, hmceq]
      simp [round3]
    · rw [calculateOverallConfidence, if_neg hmc]
      rw [if_neg hnz]
      rw [Nat.cast_list_sum, List.map_map]
      rfl

/-- Witness for the amended C4 theorem: one model ran and found
nothing, so the overall confidence is exactly 0.95. -/
theorem overallConfidence_cases_witness :
    calculateOverallConfidence cleanResult = 95/100 :=
  (overallConfidence_cases cleanResult).2.1 (by simp [cleanResult]) (by rfl)

/-- C4 as stated is refuted at a concrete input: on the empty result
(no model ran) the total raw detection count is 0, yet the overall
confidence is 0.0, not 0.95. -/
theorem overallConfidence_empty_is_zero :
    (emptyResult.detections_by_model.map (fun p => p.2.length)).sum = 0
      ∧ calculateOverallConfidence emptyResult = 0
      ∧ calculateOverallConfidence emptyResult ≠ 95/100 := by
  refine ⟨rfl, rfl, ?_⟩
  norm_num [calculateOverallConfidence, emptyResult]

/-!
## Claim C3 — a failing model is isolated
-/

/-- C3: when a `READY`, enabled model's inference raises, the exception
is caught (and logged), the analysis still returns a successful result
in which that model's recorded contribution is the empty detection
list, and the whole analysis result is the same as if that model had
run and reported no boxes — i.e. the remaining models' detections are
used unchanged. -/
theorem modelFailure_isolated
    (state : ServiceState) (outcomes : ModelType → Except InferError (List YoloBox))
    (ids : ℕ → ℕ) (now : ℕ) (models : Option (List ModelType)) (aggregate : Bool)
    (m : ModelType) (e : InferError)
    (herr : outcomes m = Except.error e)
    (hmem : m ∈ resolveModels state.enabled_models models)
    (hen : m ∈ state.enabled_models)
    (hready : state.modelStatus m = ModelStatus.ready) :
    ∃ r, analyzeWithMultipleModels state outcomes ids now models aggregate = Except.ok r
      ∧ dictLookup m r.detections_by_model = some []
      ∧ analyzeWithMultipleModels state outcomes ids now models aggregate
          = analyzeWithMultipleModels state (Function.update outcomes m (Except.ok []))
              ids now models aggregate := by
  have hne : ¬(resolveModels state.enabled_models models).isEmpty := by
    rcases hres : resolveModels state.enabled_models models with _ | ⟨a, l⟩
    · rw [hres] at hmem; cases hmem
    · simp
  have hrunm : runModelInference (outcomes m) m = [] := by
    rw [herr]; rfl
  have hstep : analyzeStep state (Function.update outcomes m (Except.ok []))
      = analyzeStep state outcomes := by
    funext acc mt
    unfold analyzeStep
    by_cases hmt : mt = m
    · subst hmt
      rw [Function.update_same, herr]
      rfl
    · rw [Function.update_noteq hmt]
  obtain ⟨r, hr⟩ : ∃ r, analyzeWithMultipleModels state outcomes ids now models aggregate
      = Except.ok r := by
    unfold analyzeWithMultipleModels
    rw [if_neg hne]
    exact ⟨_, rfl⟩
  refine ⟨r, hr, ?_, ?_⟩
  · unfold analyzeWithMultipleModels at hr
    rw [if_neg hne] at hr
    cases hr
    have hloop := analyzeLoop_lookup_of_mem state outcomes m hen hready
      (resolveModels state.enabled_models models) ([], []) hmem
    rw [hrunm] at hloop
    cases aggregate <;> simpa [aggregationStep] using hloop
  · unfold analyzeWithMultipleModels
    rw [hstep]

/-- Witness for C3 at a concrete run: `yolov8_crack` and `pds_yolo`
are both ready, `pds_yolo`'s inference raises, and the analysis still
succeeds with `pds_yolo` contributing the empty list. -/
theorem modelFailure_isolated_witness :
    ∃ r, analyzeWithMultipleModels stateTwoReady outcomesCrackBox idsZero 0 none false
        = Except.ok r
      ∧ dictLookup ModelType.pds_yolo r.detections_by_model = some []
      ∧ analyzeWithMultipleModels stateTwoReady outcomesCrackBox idsZero 0 none false
          = analyzeWithMultipleModels stateTwoReady
              (Function.update outcomesCrackBox ModelType.pds_yolo (Except.ok []))
              idsZero 0 none false :=
  modelFailure_isolated stateTwoReady outcomesCrackBox idsZero 0 none false
    ModelType.pds_yolo InferError.inferenceFailed rfl (by decide) (by decide) rfl

/-!
## Claim C7 — IoU properties
-/

/-- IoU is symmetric in its two boxes. -/
theorem calculateIou_comm (b1 b2 : BBox) : calculateIou b1 b2 = calculateIou b2 b1 := by
  simp only [calculateIou]
  rw [max_comm ((b1.x : ℚ)) ((b2.x : ℚ)), max_comm ((b1.y : ℚ)) ((b2.y : ℚ)),
    min_comm ((b1.x : ℚ) + b1.w) ((b2.x : ℚ) + b2.w),
    min_comm ((b1.y : ℚ) + b1.h) ((b2.y : ℚ) + b2.h),
    add_comm ((b1.w : ℚ) * b1.h) ((b2.w : ℚ) * b2.h)]

/-- For boxes with non-negative width and height the IoU lies in
`[0, 1]`. -/
theorem calculateIou_mem_unit (b1 b2 : BBox)
    (h1w : 0 ≤ b1.w) (h1h : 0 ≤ b1.h) (h2w : 0 ≤ b2.w) (h2h : 0 ≤ b2.h) :
    0 ≤ calculateIou b1 b2 ∧ calculateIou b1 b2 ≤ 1 := by
  have q1w : (0 : ℚ) ≤ b1.w := by exact_mod_cast h1w
  have q1h : (0 : ℚ) ≤ b1.h := by exact_mod_cast h1h
  have q2w : (0 : ℚ) ≤ b2.w := by exact_mod_cast h2w
  have q2h : (0 : ℚ) ≤ b2.h := by exact_mod_cast h2h
  simp only [calculateIou]
  split_ifs with hc hp
  · exact ⟨le_refl 0, by norm_num⟩
  · push_neg at hc
    obtain ⟨hcx, hcy⟩ := hc
    have hix : 0 ≤ min ((b1.x : ℚ) + b1.w) ((b2.x : ℚ) + b2.w) - max (b1.x : ℚ) (b2.x : ℚ) :=
      sub_nonneg.mpr hcx
    have hiy : 0 ≤ min ((b1.y : ℚ) + b1.h) ((b2.y : ℚ) + b2.h) - max (b1.y : ℚ) (b2.y : ℚ) :=
      sub_nonneg.mpr hcy
    have hxw1 : min ((b1.x : ℚ) + b1.w) ((b2.x : ℚ) + b2.w) - max (b1.x : ℚ) (b2.x : ℚ)
        ≤ (b1.w : ℚ) := by
      have ha := min_le_left ((b1.x : ℚ) + b1.w) ((b2.x : ℚ) + b2.w)
      have hb := le_max_left (b1.x : ℚ) (b2.x : ℚ)
      linarith
    have hxw2 : min ((b1.x : ℚ) + b1.w) ((b2.x : ℚ) + b2.w) - max (b1.x : ℚ) (b2.x : ℚ)
        ≤ (b2.w : ℚ) := by
      have ha := min_le_right ((b1.x : ℚ) + b1.w) ((b2.x : ℚ) + b2.w)
      have hb := le_max_right (b1.x : ℚ) (b2.x : ℚ)
      linarith
    have hyh1 : min ((b1.y : ℚ) + b1.h) ((b2.y : ℚ) + b2.h) - max (b1.y : ℚ) (b2.y : ℚ)
        ≤ (b1.h : ℚ) := by
      have ha := min_le_left ((b1.y : ℚ) + b1.h) ((b2.y : ℚ) + b2.h)
      have hb := le_max_left (b1.y : ℚ) (b2.y : ℚ)
      linarith
    have hyh2 : min ((b1.y : ℚ) + b1.h) ((b2.y : ℚ) + b2.h) - max (b1.y : ℚ) (b2.y : ℚ)
        ≤ (b2.h : ℚ) := by
      have ha := min_le_right ((b1.y : ℚ) + b1.h) ((b2.y : ℚ) + b2.h)
      have hb := le_max_right (b1.y : ℚ) (b2.y : ℚ)
      linarith
    have hIa1 : (min ((b1.x : ℚ) + b1.w) ((b2.x : ℚ) + b2.w) - max (b1.x : ℚ) (b2.x : ℚ))
        * (min ((b1.y : ℚ) + b1.h) ((b2.y : ℚ) + b2.h) - max (b1.y : ℚ) (b2.y : ℚ))
        ≤ (b1.w : ℚ) * b1.h := mul_le_mul hxw1 hyh1 hiy q1w
    have hIa2 : (min ((b1.x : ℚ) + b1.w) ((b2.x : ℚ) + b2.w) - max (b1.x : ℚ) (b2.x : ℚ))
        * (min ((b1.y : ℚ) + b1.h) ((b2.y : ℚ) + b2.h) - max (b1.y : ℚ) (b2.y : ℚ))
        ≤ (b2.w : ℚ) * b2.h := mul_le_mul hxw2 hyh2 hiy q2w
    constructor
    · exact div_nonneg (mul_nonneg hix hiy) (le_of_lt hp)
    · rw [div_le_one hp]
      linarith
  · exact ⟨le_refl 0, by norm_num⟩

/-- IoU of a box with itself is exactly 1 when the box has positive
area. -/
theorem calculateIou_self (b : BBox) (hw : 0 ≤ b.w) (hh : 0 ≤ b.h) (hpos : 0 < b.w * b.h) :
    calculateIou b b = 1 := by
  have qpos : (0 : ℚ) < (b.w : ℚ) * b.h := by exact_mod_cast hpos
  have qw : (0 : ℚ) ≤ b.w := by exact_mod_cast hw
  have qh : (0 : ℚ) ≤ b.h := by exact_mod_cast hh
  simp only [calculateIou, max_self, min_self]
  rw [if_neg (by push_neg; constructor <;> linarith)]
  have hi : ((b.x : ℚ) + b.w - b.x) * ((b.y : ℚ) + b.h - b.y) = (b.w : ℚ) * b.h := by ring
  rw [hi]
  rw [show (b.w : ℚ) * b.h + (b.w : ℚ) * b.h - (b.w : ℚ) * b.h = (b.w : ℚ) * b.h by ring]
  rw [if_pos qpos]
  exact div_self (ne_of_gt qpos)

/-- IoU is exactly 0 whenever the boxes' horizontal or vertical
extents fail to overlap with positive length. -/
theorem calculateIou_eq_zero_of_disjoint (b1 b2 : BBox)
    (h : min ((b1.x : ℚ) + b1.w) ((b2.x : ℚ) + b2.w) ≤ max (b1.x : ℚ) (b2.x : ℚ)
      ∨ min ((b1.y : ℚ) + b1.h) ((b2.y : ℚ) + b2.h) ≤ max (b1.y : ℚ) (b2.y : ℚ)) :
    calculateIou b1 b2 = 0 := by
  simp only [calculateIou]
  split_ifs with hc hp
  · rfl
  · push_neg at hc
    obtain ⟨hcx, hcy⟩ := hc
    rcases h with h | h
    · rw [le_antisymm h hcx, sub_self, zero_mul, zero_div]
    · rw [le_antisymm h hcy, sub_self, mul_zero, zero_div]
  · rfl

/-- IoU is exactly 0 when both boxes are degenerate (zero area), the
`union == 0` guard of the code. -/
theorem calculateIou_eq_zero_of_degenerate (b1 b2 : BBox)
    (h1w : 0 ≤ b1.w) (h1h : 0 ≤ b1.h) (h2w : 0 ≤ b2.w) (h2h : 0 ≤ b2.h)
    (ha1 : b1.w * b1.h = 0) (ha2 : b2.w * b2.h = 0) :
    calculateIou b1 b2 = 0 := by
  have qa1 : (b1.w : ℚ) * b1.h = 0 := by exact_mod_cast ha1
  have qa2 : (b2.w : ℚ) * b2.h = 0 := by exact_mod_cast ha2
  have hb := calculateIou_mem_unit b1 b2 h1w h1h h2w h2h
  simp only [calculateIou] at hb ⊢
  split_ifs with hc hp
  · rfl
  · exfalso
    push_neg at hc
    obtain ⟨hcx, hcy⟩ := hc
    have hix : 0 ≤ min ((b1.x : ℚ) + b1.w) ((b2.x : ℚ) + b2.w) - max (b1.x : ℚ) (b2.x : ℚ) :=
      sub_nonneg.mpr hcx
    have hiy : 0 ≤ min ((b1.y : ℚ) + b1.h) ((b2.y : ℚ) + b2.h) - max (b1.y : ℚ) (b2.y : ℚ) :=
      sub_nonneg.mpr hcy
    have hI : 0 ≤ (min ((b1.x : ℚ) + b1.w) ((b2.x : ℚ) + b2.w) - max (b1.x : ℚ) (b2.x : ℚ))
        * (min ((b1.y : ℚ) + b1.h) ((b2.y : ℚ) + b2.h) - max (b1.y : ℚ) (b2.y : ℚ)) :=
      mul_nonneg hix hiy
    rw [qa1, qa2] at hp
    linarith
  · rfl

/-- C7: the IoU function is symmetric; for boxes with non-negative
width and height its value lies in `[0, 1]`; the IoU of a box of
positive area with itself is exactly 1; it is exactly 0 when the boxes
do not overlap (one axis' extents merely touch or are apart), and
exactly 0 in the zero-union (both boxes degenerate) case. -/
theorem iouProperties (b1 b2 : BBox) :
    calculateIou b1 b2 = calculateIou b2 b1
      ∧ (0 ≤ b1.w → 0 ≤ b1.h → 0 ≤ b2.w → 0 ≤ b2.h →
          0 ≤ calculateIou b1 b2 ∧ calculateIou b1 b2 ≤ 1)
      ∧ (0 ≤ b1.w → 0 ≤ b1.h → 0 < b1.w * b1.h → calculateIou b1 b1 = 1)
      ∧ (min ((b1.x : ℚ) + b1.w) ((b2.x : ℚ) + b2.w) ≤ max (b1.x : ℚ) (b2.x : ℚ)
          ∨ min ((b1.y : ℚ) + b1.h) ((b2.y : ℚ) + b2.h) ≤ max (b1.y : ℚ) (b2.y : ℚ) →
          calculateIou b1 b2 = 0)
      ∧ (0 ≤ b1.w → 0 ≤ b1.h → 0 ≤ b2.w → 0 ≤ b2.h →
          b1.w * b1.h = 0 → b2.w * b2.h = 0 → calculateIou b1 b2 = 0) :=
  ⟨calculateIou_comm b1 b2,
   fun a b c d => calculateIou_mem_unit b1 b2 a b c d,
   fun a b c => calculateIou_self b1 a b c,
   fun h => calculateIou_eq_zero_of_disjoint b1 b2 h,
   fun a b c d e f => calculateIou_eq_zero_of_degenerate b1 b2 a b c d e f⟩

/-- Witness for C7 at concrete boxes: the scenario box of model A, the
far-away box (which does not overlap it), and two degenerate boxes. -/
theorem iouProperties_witness :
    calculateIou exDetA.bbox exDetFar.bbox = calculateIou exDetFar.bbox exDetA.bbox
      ∧ (0 ≤ calculateIou exDetA.bbox exDetFar.bbox
          ∧ calculateIou exDetA.bbox exDetFar.bbox ≤ 1)
      ∧ calculateIou exDetA.bbox exDetA.bbox = 1
      ∧ calculateIou exDetA.bbox exDetFar.bbox = 0
      ∧ calculateIou zeroBoxA zeroBoxB = 0 :=
  ⟨(iouProperties exDetA.bbox exDetFar.bbox).1,
   (iouProperties exDetA.bbox exDetFar.bbox).2.1 (by decide) (by decide) (by decide) (by decide),
   (iouProperties exDetA.bbox exDetFar.bbox).2.2.1 (by decide) (by decide) (by decide),
   (iouProperties exDetA.bbox exDetFar.bbox).2.2.2.1
     (by left; norm_num [exDetA, exDetFar]),
   (iouProperties zeroBoxA zeroBoxB).2.2.2.2 (by decide) (by decide) (by decide) (by decide)
     (by decide) (by decide)⟩

/-!
## Claim C5 — severity classifier refines the claim's wording
-/

/-- C5: the code's severity classifier agrees with the claim's reading
everywhere — although the code applies its critical-type rule to the
POST-area-escalation severity while the claim keys it on the
pre-escalation base, the two disagree on no input (when the claim's
rule fires on a large box, the code's area escalation already yields
critical) — and the spec's concrete example (confidence 0.96, area
20000, type crack) is classified critical. -/
theorem severity_matches_claim_spec :
    (∀ (confidence : ℚ) (bbox : BBox) (dt : DefectType),
        calculateSeverity confidence bbox dt = severityClaimSpec confidence bbox dt)
      ∧ calculateSeverity (96/100) { x := 0, y := 0, w := 100, h := 200 } DefectType.crack
          = DefectSeverity.critical := by
  constructor
  · intro conf bbox dt
    simp only [calculateSeverity, severityClaimSpec]
    rcases le_or_lt (9/10 : ℚ) conf with h9 | h9
    · rcases le_or_lt (19/20 : ℚ) conf with h95 | h95
      · by_cases hA : 15000 < bbox.w * bbox.h <;>
          by_cases hdt : dt = DefectType.crack ∨ dt = DefectType.damage <;>
            simp [h9, h95, hA, hdt, severityOrder, pyIndex, escalateOneStep]
      · have h95n : ¬((19 : ℚ)/20 ≤ conf) := not_le.mpr h95
        by_cases hA : 15000 < bbox.w * bbox.h <;>
          simp [h9, h95n, hA, severityOrder, pyIndex, escalateOneStep]
    · have h9n : ¬((9 : ℚ)/10 ≤ conf) := not_le.mpr h9
      have h95n : ¬((19 : ℚ)/20 ≤ conf) := not_le.mpr (by linarith)
      rcases le_or_lt (3/4 : ℚ) conf with h75 | h75
      · by_cases hA : 15000 < bbox.w * bbox.h <;>
          simp [h9n, h95n, h75, hA, severityOrder, pyIndex, escalateOneStep]
      · have h75n : ¬((3 : ℚ)/4 ≤ conf) := not_le.mpr h75
        by_cases hA : 15000 < bbox.w * bbox.h <;>
          simp [h9n, h95n, h75n, hA, severityOrder, pyIndex, escalateOneStep]
  · norm_num [calculateSeverity, severityOrder, pyIndex]
    decide

/-!
## Claim C10 — class-name-to-defect-type mapping
-/

/-- ASCII lowering is idempotent. -/
theorem lowerChar_idem (c : ℕ) : lowerChar (lowerChar c) = lowerChar c := by
  unfold lowerChar
  split_ifs with h1 h2 <;> first | rfl | omega

/-- Lowering a class name twice is the same as lowering it once. -/
theorem pyLower_idem (s : List ℕ) : pyLower (pyLower s) = pyLower s := by
  simp [pyLower, List.map_map, Function.comp, lowerChar_idem]

/-- C10: the class-name-to-defect-type mapping ignores the model type,
is case-insensitive (invariant under lowercasing the input), returns
`unknown` when none of the 14 recognized substrings occurs in the
lowercased name, and in general agrees with the first matching rule of
the fixed ordered rule table. -/
theorem mapClass_properties :
    (∀ (s : List ℕ) (mt mt2 : ModelType),
        mapClassToDefectType s mt = mapClassToDefectType s mt2)
      ∧ (∀ (s : List ℕ) (mt : ModelType),
          mapClassToDefectType (pyLower s) mt = mapClassToDefectType s mt)
      ∧ (∀ (s : List ℕ) (mt : ModelType),
          (∀ sub ∈ recognizedSubstrings, pyIn sub (pyLower s) = false) →
          mapClassToDefectType s mt = DefectType.unknown)
      ∧ (∀ (s : List ℕ) (mt : ModelType),
          mapClassToDefectType s mt = firstMatchingRuleType (pyLower s)) := by
  refine ⟨?_, ?_, ?_, ?_⟩
  · intro s mt mt2
    rfl
  · intro s mt
    simp only [mapClassToDefectType]
    rw [pyLower_idem]
  · intro s mt h
    have h1 := h subCrack (by simp [recognizedSubstrings])
    have h2 := h subFracture (by simp [recognizedSubstrings])
    have h3 := h subCorrosion (by simp [recognizedSubstrings])
    have h4 := h subRust (by simp [recognizedSubstrings])
    have h5 := h subWeld (by simp [recognizedSubstrings])
    have h6 := h subCoating (by simp [recognizedSubstrings])
    have h7 := h subPaint (by simp [recognizedSubstrings])
    have h8 := h subFouling (by simp [recognizedSubstrings])
    have h9 := h subBiofouling (by simp [recognizedSubstrings])
    have h10 := h subMarineGrowth (by simp [recognizedSubstrings])
    have h11 := h subDamage (by simp [recognizedSubstrings])
    have h12 := h subDent (by simp [recognizedSubstrings])
    have h13 := h subWear (by simp [recognizedSubstrings])
    have h14 := h subErosion (by simp [recognizedSubstrings])
    simp [mapClassToDefectType, h1, h2, h3, h4, h5, h6, h7, h8, h9, h10, h11, h12, h13, h14]
  · intro s mt
    simp only [mapClassToDefectType, firstMatchingRuleType, defectRules, List.find?,
      List.any_cons, List.any_nil, Bool.or_false]
    split_ifs <;> simp_all [-Bool.or_eq_true, Bool.or_assoc]

/-- Witness for C10's unknown-fallback at a concrete class name with
no recognized substring. -/
theorem mapClass_properties_witness :
    mapClassToDefectType [120, 121] ModelType.pds_yolo = DefectType.unknown :=
  mapClass_properties.2.2.1 [120, 121] ModelType.pds_yolo (by decide)

/-!
## Claim C6 — grouping is a partition; isolated detections stay
-/

/-- The concatenation of the produced groups is a permutation of the
input list: grouping neither drops nor duplicates a detection. -/
theorem groupOverlap_flatten_perm (iou_threshold : ℚ) :
    ∀ l : List ModelDetection,
      List.Perm (groupOverlappingDetections iou_threshold l).flatten l
  | [] => by
      simp [groupOverlappingDetections]
  | det1 :: rest => by
      rw [groupOverlappingDetections]
      simp only [List.flatten_cons, List.cons_append]
      refine List.Perm.cons det1 ?_
      have ih := groupOverlap_flatten_perm iou_threshold
        (rest.filter (fun d =>
          ! decide (iou_threshold ≤ calculateIou det1.bbox d.bbox)))
      have h1 := List.Perm.append_left
        (rest.filter (fun det2 => decide (iou_threshold ≤ calculateIou det1.bbox det2.bbox)))
        ih
      exact h1.trans (List.filter_append_perm _ rest)
termination_by l => l.length
decreasing_by
  exact Nat.lt_succ_of_le (List.length_filter_le _ _)

/-- A detection whose IoU with every other detection in the list is
below the threshold (and which is not an exact duplicate that overlaps
itself) ends up in a singleton group. -/
theorem groupOverlap_singleton (iou_threshold : ℚ) :
    ∀ (l : List ModelDetection) (d : ModelDetection),
      d ∈ l →
      (∀ d2 ∈ l, d2 = d ∨ calculateIou d.bbox d2.bbox < iou_threshold) →
      (l.count d = 1 ∨ calculateIou d.bbox d.bbox < iou_threshold) →
      [d] ∈ groupOverlappingDetections iou_threshold l
  | [], d, hd, _, _ => absurd hd (List.not_mem_nil d)
  | det1 :: rest, d, hd, hiou, hcnt => by
      rw [groupOverlappingDetections]
      by_cases h1 : det1 = d
      · subst h1
        have hfilter : rest.filter (fun det2 =>
            decide (iou_threshold ≤ calculateIou det1.bbox det2.bbox)) = [] := by
          rw [List.filter_eq_nil_iff]
          intro d2 hd2
          rcases hiou d2 (List.mem_cons_of_mem det1 hd2) with he | hlt
          · subst he
            rcases hcnt with hcount | hself
            · exfalso
              have : 0 < rest.count d2 := List.count_pos_iff.mpr hd2
              simp [List.count_cons_self] at hcount
              omega
            · simp only [decide_eq_true_eq]
              exact not_le.mpr hself
          · simp only [decide_eq_true_eq]
            exact not_le.mpr hlt
        rw [hfilter]
        exact List.mem_cons_self _ _
      · have hdrest : d ∈ rest := by
          rcases List.mem_cons.mp hd with he | hm
          · exact absurd he.symm h1
          · exact hm
        have hseed : calculateIou d.bbox det1.bbox < iou_threshold := by
          rcases hiou det1 (List.mem_cons_self det1 rest) with he | hlt
          · exact absurd he h1
          · exact hlt
        have hsurv : calculateIou det1.bbox d.bbox < iou_threshold := by
          rw [calculateIou_comm]
          exact hseed
        have hmemfilter : d ∈ rest.filter (fun d2 =>
            ! decide (iou_threshold ≤ calculateIou det1.bbox d2.bbox)) := by
          rw [List.mem_filter]
          exact ⟨hdrest, by simp [not_le.mpr hsurv]⟩
        have hsub : List.Sublist (rest.filter (fun d2 =>
            ! decide (iou_threshold ≤ calculateIou det1.bbox d2.bbox))) rest :=
          List.filter_sublist rest
        have hrec := groupOverlap_singleton iou_threshold
          (rest.filter (fun d2 =>
            ! decide (iou_threshold ≤ calculateIou det1.bbox d2.bbox))) d
          hmemfilter
          (fun d2 hd2 => hiou d2
            (List.mem_cons_of_mem det1 (List.mem_of_mem_filter hd2)))
          (by
            rcases hcnt with hcount | hself
            · left
              have hle := hsub.count_le d
              have hrestcount : rest.count d = 1 := by
                have := List.count_cons d det1 rest
                rw [List.count_cons] at hcount
                simp [h1] at hcount
                omega
              have hpos : 0 < (rest.filter (fun d2 =>
                  ! decide (iou_threshold ≤ calculateIou det1.bbox d2.bbox))).count d :=
                List.count_pos_iff.mpr hmemfilter
              rw [hrestcount] at hle
              omega
            · right
              exact hself)
        exact List.mem_cons_of_mem _ hrec
termination_by l => l.length
decreasing_by
  exact Nat.lt_succ_of_le (List.length_filter_le _ _)

/-- C6: grouping is a partition — the groups' concatenation is a
permutation of the input (so every detection appears, with its exact
multiplicity, across the groups), each detection's count over all
groups equals its count in the input ("exactly one group"), and a
detection overlapping nothing else (below threshold against every
other detection, and not an overlapping exact duplicate) forms a
singleton group rather than being discarded. -/
theorem grouping_partition (iou_threshold : ℚ) (l : List ModelDetection) :
    List.Perm (groupOverlappingDetections iou_threshold l).flatten l
      ∧ (∀ d : ModelDetection,
          ((groupOverlappingDetections iou_threshold l).map (fun g => g.count d)).sum
            = l.count d)
      ∧ (∀ d ∈ l,
          (∀ d2 ∈ l, d2 = d ∨ calculateIou d.bbox d2.bbox < iou_threshold) →
          (l.count d = 1 ∨ calculateIou d.bbox d.bbox < iou_threshold) →
          [d] ∈ groupOverlappingDetections iou_threshold l) := by
  refine ⟨groupOverlap_flatten_perm _ l, ?_,
    fun d hd h1 h2 => groupOverlap_singleton _ l d hd h1 h2⟩
  intro d
  have h := List.count_flatten d (groupOverlappingDetections iou_threshold l)
  have h2 := List.Perm.count_eq (groupOverlap_flatten_perm iou_threshold l) d
  rw [← h2, h]

/-- Witness for C6 at a concrete input: the scenario box of model A
together with the far-away box; the far-away box overlaps nothing and
forms a singleton group. -/
theorem grouping_partition_witness :
    List.Perm (groupOverlappingDetections (1/2) [exDetA, exDetFar]).flatten
        [exDetA, exDetFar]
      ∧ [exDetFar] ∈ groupOverlappingDetections (1/2) [exDetA, exDetFar] := by
  refine ⟨(grouping_partition (1/2) [exDetA, exDetFar]).1,
    (grouping_partition (1/2) [exDetA, exDetFar]).2.2 exDetFar (by simp) ?_ ?_⟩
  · intro d2 hd2
    rcases List.mem_cons.mp hd2 with he | hm
    · subst he
      right
      norm_num [calculateIou, exDetA, exDetFar]
    · left
      simpa using hm
  · left
    norm_num [List.count_cons, List.count_nil, exDetA, exDetFar]

/-!
## Claim C1 — consensus confidence
-/

/-- `round3` preserves non-negativity. -/
theorem round3_nonneg (q : ℚ) (h : 0 ≤ q) : 0 ≤ round3 q := by
  unfold round3
  apply div_nonneg _ (by norm_num)
  have hr : round ((0 : ℚ)) ≤ round (q * 1000) := by
    rw [round_eq, round_eq]
    exact Int.floor_le_floor (by linarith)
  rw [round_zero] at hr
  exact_mod_cast hr

/-- `round3` maps values at most 1 to values at most 1. -/
theorem round3_le_one (q : ℚ) (h : q ≤ 1) : round3 q ≤ 1 := by
  unfold round3
  rw [div_le_one (by norm_num : (0 : ℚ) < 1000)]
  have hr : round (q * 1000) ≤ round ((1000 : ℚ)) := by
    rw [round_eq, round_eq]
    exact Int.floor_le_floor (by linarith)
  have h1000 : round ((1000 : ℚ)) = 1000 := by
    norm_num [round_eq]
  rw [h1000] at hr
  exact_mod_cast hr

/-- C1 (amended): the consensus confidence is
`round3(min(mean + min(0.05 · k, 0.15), 1))` for a group of size `k` —
the bonus multiplies the group size itself, NOT `k − 1`, so even a
singleton group is boosted by 0.05 and the cap is reached from 3
members — and it always lies in `[0, 1]` when the members' confidences
do. -/
theorem consensus_confidence_amended (idv : ℕ) (g : List ModelDetection)
    (_hne : g ≠ [])
    (hconf : ∀ d ∈ g, 0 ≤ d.confidence ∧ d.confidence ≤ 1) :
    (createConsensusDefect idv g).confidence
        = round3 (min (npMeanQ (g.map (fun d => d.confidence))
            + min ((g.length : ℚ) * (5/100)) (15/100)) 1)
      ∧ 0 ≤ (createConsensusDefect idv g).confidence
      ∧ (createConsensusDefect idv g).confidence ≤ 1 := by
  have heq : (createConsensusDefect idv g).confidence
      = round3 (min (npMeanQ (g.map (fun d => d.confidence))
          + min ((g.length : ℚ) * (5/100)) (15/100)) 1) := rfl
  have hmean : 0 ≤ npMeanQ (g.map (fun d => d.confidence)) := by
    unfold npMeanQ
    apply div_nonneg _ (Nat.cast_nonneg _)
    apply List.sum_nonneg
    intro x hx
    obtain ⟨d, hd, hdx⟩ := List.mem_map.mp hx
    rw [← hdx]
    exact (hconf d hd).1
  have hboost : 0 ≤ min ((g.length : ℚ) * (5/100)) (15/100) :=
    le_min (mul_nonneg (Nat.cast_nonneg _) (by norm_num)) (by norm_num)
  refine ⟨heq, ?_, ?_⟩
  · rw [heq]
    apply round3_nonneg
    exact le_min (by linarith) (by norm_num)
  · rw [heq]
    apply round3_le_one
    exact min_le_right _ _

/-- Witness for the amended C1 theorem at the spec's two-member
scenario group. -/
theorem consensus_confidence_amended_witness :
    (createConsensusDefect 0 [exDetA, exDetB]).confidence
        = round3 (min (npMeanQ ([exDetA, exDetB].map (fun d => d.confidence))
            + min (([exDetA, exDetB].length : ℚ) * (5/100)) (15/100)) 1)
      ∧ 0 ≤ (createConsensusDefect 0 [exDetA, exDetB]).confidence
      ∧ (createConsensusDefect 0 [exDetA, exDetB]).confidence ≤ 1 :=
  consensus_confidence_amended 0 [exDetA, exDetB] (by simp)
    (by
      intro d hd
      rcases List.mem_cons.mp hd with he | hm
      · subst he
        constructor <;> norm_num [exDetA]
      · have he : d = exDetB := by simpa using hm
        subst he
        constructor <;> norm_num [exDetB])

/-- C1 as stated is refuted at the spec's own example: the group with
confidences 0.92 and 0.89 gets boost `min(2 · 0.05, 0.15) = 0.10`, so
the consensus confidence is `min(0.905 + 0.10, 1) = 1.0`, not the
claimed 0.955. -/
theorem consensus_confidence_spec_example_fails :
    (createConsensusDefect 0 [exDetA, exDetB]).confidence = 1
      ∧ (createConsensusDefect 0 [exDetA, exDetB]).confidence ≠ 955/1000 := by
  have h : (createConsensusDefect 0 [exDetA, exDetB]).confidence = 1 := by
    have heq : (createConsensusDefect 0 [exDetA, exDetB]).confidence
        = round3 (min (npMeanQ ([exDetA, exDetB].map (fun d => d.confidence))
            + min (([exDetA, exDetB].length : ℚ) * (5/100)) (15/100)) 1) := rfl
    rw [heq]
    norm_num [npMeanQ, exDetA, exDetB, round3]
  refine ⟨h, ?_⟩
  rw [h]
  norm_num

/-!
## Claim C8 — aggregation re-run determinism
-/

/-- All non-id fields of a consensus defect are independent of the id
draw. -/
theorem defectSansId_createConsensusDefect (i j : ℕ) (g : List ModelDetection) :
    defectSansId (createConsensusDefect i g) = defectSansId (createConsensusDefect j g) := rfl

/-- C8 (amended): re-running the aggregation step (grouping, consensus
synthesis, overall-confidence computation) on the same raw-detection
input yields results that agree on `detections_by_model`,
`model_confidences`, `overall_confidence`, `analysis_metadata`, and on
every field of every consensus defect EXCEPT its id — the id comes
from a fresh `uuid4` draw on each run, modelled here by the two id
supplies. -/
theorem aggregationStep_deterministic_up_to_ids (r : MultiModelResult) (ids1 ids2 : ℕ → ℕ) :
    (aggregationStep ids1 r).detections_by_model
        = (aggregationStep ids2 r).detections_by_model
      ∧ (aggregationStep ids1 r).model_confidences
          = (aggregationStep ids2 r).model_confidences
      ∧ (aggregationStep ids1 r).overall_confidence
          = (aggregationStep ids2 r).overall_confidence
      ∧ (aggregationStep ids1 r).analysis_metadata
          = (aggregationStep ids2 r).analysis_metadata
      ∧ (aggregationStep ids1 r).consensus_detections.map defectSansId
          = (aggregationStep ids2 r).consensus_detections.map defectSansId := by
  refine ⟨rfl, rfl, rfl, rfl, ?_⟩
  simp only [aggregationStep, aggregateDetections]
  split_ifs with h
  · rfl
  · simp only [List.map_map]
    rfl

/-- C8 as stated is refuted at a concrete input: aggregating the
single scenario detection twice with different `uuid4` draws (id
supplies) produces consensus defects with different ids, hence
different `MultiModelResult` values. -/
theorem aggregationStep_ids_differ :
    (aggregationStep idsZero oneDetectionResult).consensus_detections.map (fun d => d.id)
        = [0]
      ∧ (aggregationStep idsShift oneDetectionResult).consensus_detections.map (fun d => d.id)
          = [100]
      ∧ aggregationStep idsZero oneDetectionResult
          ≠ aggregationStep idsShift oneDetectionResult := by
  have h1 : (aggregationStep idsZero oneDetectionResult).consensus_detections.map
      (fun d => d.id) = [0] := by
    simp [aggregationStep, aggregateDetections, oneDetectionResult,
      groupOverlappingDetections, createConsensusDefect, idsZero, List.enum]
  have h2 : (aggregationStep idsShift oneDetectionResult).consensus_detections.map
      (fun d => d.id) = [100] := by
    simp [aggregationStep, aggregateDetections, oneDetectionResult,
      groupOverlappingDetections, createConsensusDefect, idsShift, List.enum]
  refine ⟨h1, h2, ?_⟩
  intro heq
  have := congrArg (fun r : MultiModelResult =>
    r.consensus_detections.map (fun d => d.id)) heq
  simp only [h1, h2] at this
  cases this

/-- Witness for the amended C2 theorem at a concrete state: with no
subset given and nothing enabled, the analysis fails with the
no-models error. -/
theorem analyze_noModels_error_witness :
    analyzeWithMultipleModels stateNothingReady outcomesEmpty idsZero 0 none true
      = Except.error AnalyzeError.noModelsEnabled :=
  (analyze_noModels_error_iff_resolved_empty stateNothingReady outcomesEmpty idsZero 0
    none true).mpr rfl
